import Mathlib

/-!
Verification of the Baserow record-linker core (`src/app/main.py`).

The Python program is shallowly embedded: rows, tables and configurations
become explicit data; every remote effect (row update, log warning) becomes
an `Event` in an output trace; every raised exception becomes an error value
that stops the fold, mirroring the unguarded `raise`/propagation structure of
the source.
-/

deriving instance DecidableEq for Except

namespace BaserowLinker

/-- A Baserow cell value as the Python code can observe it: a text value,
an integer, a boolean, or `None`. -/
inductive Value where
  | str (s : String)
  | intV (n : Int)
  | boolV (b : Bool)
  | null
deriving DecidableEq

/-- Python truthiness (`if field_value:` at main.py:104): empty string,
zero, `False` and `None` are falsy. -/
def Value.truthy : Value → Bool
  | .str s => !(s == "")
  | .intV n => !(n == 0)
  | .boolV b => b
  | .null => false

/-- A remote row: stable identifier plus a field-name-to-value mapping. -/
structure Row where
  id : Nat
  fields : List (String × Value)
deriving DecidableEq

/-- Lookup in a field-name-to-value association (a Python dict whose keys
are unique). -/
def assocGet : List (String × Value) → String → Option Value
  | [], _ => none
  | p :: ps, f => if p.1 = f then some p.2 else assocGet ps f

/-- Field access `row[field_name]`; `none` models a `KeyError`. -/
def Row.get (r : Row) (f : String) : Option Value :=
  assocGet r.fields f

/-- Field access where the field name itself is a config value: a
non-string field name never matches (a `KeyError` in Python). -/
def Row.getV (r : Row) (f : Value) : Option Value :=
  match f with
  | .str s => r.get s
  | _ => none

/-- A remote table: its rows in server order and its primary field name. -/
structure Table where
  rows : List Row
  primaryField : String
deriving DecidableEq

/-- The remote service: a mapping from table id to table.  A missing id
models `get_table` failing (transport error). -/
abbrev Database := List (Value × Table)

def getTable : Database → Value → Option Table
  | [], _ => none
  | p :: ps, tid => if p.1 = tid then some p.2 else getTable ps tid

/-! ### Normalization (`field_value.strip().lower()`)

Python's `str.strip` removes leading and trailing whitespace and
`str.lower` lower-cases; both are embedded character-list-wise for the
ASCII range the program manipulates. -/

/-- Python whitespace for `str.strip`: space, tab, LF, VT, FF, CR. -/
def isPySpace (c : Char) : Bool :=
  c.toNat = 32 || c.toNat = 9 || c.toNat = 10 || c.toNat = 11 || c.toNat = 12 || c.toNat = 13

/-- ASCII lower-casing of one character (`str.lower`). -/
def pyToLower (c : Char) : Char :=
  if 65 ≤ c.toNat ∧ c.toNat ≤ 90 then Char.ofNat (c.toNat + 32) else c

/-- `str.strip`: drop whitespace from the front, then from the back. -/
def stripChars (l : List Char) : List Char :=
  List.rdropWhile isPySpace (l.dropWhile isPySpace)

/-- `value.strip().lower()` as used at main.py:106 and main.py:292. -/
def normalize (s : String) : String :=
  String.mk ((stripChars s.data).map pyToLower)

/-! ### Index construction (`create_index_from_table`, main.py:71-130) -/

/-- The index: normalized key to the row stored under it.  `indexInsert`
overwrites an existing binding, as assignment into a Python dict does. -/
abbrev Index := List (String × Row)

/-- Remove every binding of key `k` (there is at most one in any index the
program builds). -/
def removeKey : Index → String → Index
  | [], _ => []
  | p :: idx, k => if p.1 = k then removeKey idx k else p :: removeKey idx k

def indexInsert (idx : Index) (k : String) (r : Row) : Index :=
  (k, r) :: removeKey idx k

def indexLookup : Index → String → Option Row
  | [], _ => none
  | p :: idx, k => if p.1 = k then some p.2 else indexLookup idx k

/-- The per-row loop of `create_index_from_table` (main.py:99-127).
A missing field (`KeyError`) is caught and the row skipped; a falsy value
is skipped with a warning; a truthy text value is normalized and inserted,
overwriting any previous binding; a truthy non-text value makes
`.strip()` raise, which the `except Exception` arm re-raises, aborting
the construction. -/
def buildIndexRows (fieldName : Value) : List Row → Index → Except String Index
  | [], idx => .ok idx
  | row :: rest, idx =>
    match row.getV fieldName with
    | none => buildIndexRows fieldName rest idx
    | some v =>
      if v.truthy then
        match v with
        | .str s => buildIndexRows fieldName rest (indexInsert idx (normalize s) row)
        | _ => .error "AttributeError: value has no method strip"
      else
        buildIndexRows fieldName rest idx

/-- `create_index_from_table` (main.py:71-130): table retrieval failure
propagates; otherwise the rows are folded into an index. -/
def create_index_from_table (db : Database) (tableId fieldName : Value) : Except String Index :=
  match getTable db tableId with
  | none => .error "Failed to retrieve table"
  | some t => buildIndexRows fieldName t.rows []

/-! ### Fetching the work queue (`filter_baserow_table`, main.py:163-211)

The only filter the linker builds is `Filter(reference_field, "", "empty")`
(main.py:273): the remote service keeps the rows whose reference field is
empty. -/

/-- Emptiness as the remote "empty" operator sees a stored value. -/
def valueIsEmpty : Value → Bool
  | .str s => s == ""
  | .null => true
  | _ => false

def rowMatchesEmptyFilter (refField : Value) (r : Row) : Bool :=
  match r.getV refField with
  | some v => valueIsEmpty v
  | none => false

/-- `filter_baserow_table` applied to the empty-reference filter: a failed
table retrieval raises; no matching rows yields `[]`, not an error
(main.py:199-204). -/
def filter_baserow_table (db : Database) (tableId refField : Value) : Except String (List Row) :=
  match getTable db tableId with
  | none => .error "Table not found"
  | some t => .ok (t.rows.filter (rowMatchesEmptyFilter refField))

/-! ### The linking pass (`link_related_records`, main.py:215-322) -/

/-- Observable remote effects and log lines of one run, in order. -/
inductive Event where
  | emptyQueueWarning (sourceTableId : Value)
  | rowWrite (sourceRowId : Nat) (field : Value) (value : Value)
  | linkSuccess (sourceRowId : Nat) (targetRowId : Nat)
  | noMatchWarning (sourceRowId : Nat) (key : String)
deriving DecidableEq

/-- The per-row loop at main.py:291-315.  Reading the match field is NOT
guarded: a missing field (`KeyError`) or a non-text value
(`AttributeError` from `.strip()`) stops the loop and the error
propagates.  A matched row gets a single-field update followed by a
success log; an unmatched row gets only a warning. -/
def linkRows (matchField refField pkField : Value) (idx : Index) :
    List Row → List Event × Option String
  | [] => ([], none)
  | row :: rest =>
    match row.getV matchField with
    | none => ([], some "KeyError: source match field")
    | some v =>
      match v with
      | .str s =>
        match indexLookup idx (normalize s) with
        | some trow =>
          match trow.getV pkField with
          | none => ([], some "KeyError: target primary key field")
          | some pv =>
            let res := linkRows matchField refField pkField idx rest
            (.rowWrite row.id refField pv :: .linkSuccess row.id trow.id :: res.1, res.2)
        | none =>
          let res := linkRows matchField refField pkField idx rest
          (.noMatchWarning row.id (normalize s) :: res.1, res.2)
      | _ => ([], some "AttributeError: value has no method strip")

/-- The six keys checked at main.py:241-252, in source order. -/
def requiredFields : List String :=
  ["source_table_id", "target_table_id", "source_table_match_field",
   "target_table_match_field", "target_table_primary_key_field",
   "source_table_reference_field"]

def getCfg (cfg : List (String × Value)) (k : String) : Option Value :=
  assocGet cfg k

/-- The validation loop at main.py:250-252: the first required key absent
from the config dict, if any. -/
def firstMissingField (cfg : List (String × Value)) : Option String :=
  requiredFields.find? (fun f => (getCfg cfg f).isNone)

/-- The body of the per-config loop (main.py:239-315) once the six
config values are in hand. -/
def linkValidConfig (db : Database) (sid tid smf tmf pkf srf : Value) :
    List Event × Option String :=
  match filter_baserow_table db sid srf with
  | .error e => ([], some e)
  | .ok [] => ([.emptyQueueWarning sid], none)
  | .ok (r :: rs) =>
    match create_index_from_table db tid tmf with
    | .error e => ([], some e)
    | .ok idx => linkRows smf srf pkf idx (r :: rs)

/-- One iteration of the config loop: validate the six keys (a missing
key raises `ValueError` naming it), then fetch the work queue, short
circuit when it is empty, build the target index, and link row by row. -/
def linkOneConfig (db : Database) (cfg : List (String × Value)) :
    List Event × Option String :=
  match firstMissingField cfg with
  | some f => ([], some ("Missing required config field: " ++ f))
  | none =>
    match getCfg cfg "source_table_id", getCfg cfg "target_table_id",
          getCfg cfg "source_table_match_field", getCfg cfg "target_table_match_field",
          getCfg cfg "target_table_primary_key_field", getCfg cfg "source_table_reference_field" with
    | some sid, some tid, some smf, some tmf, some pkf, some srf =>
      linkValidConfig db sid tid smf tmf pkf srf
    | _, _, _, _, _, _ => ([], some "unreachable: validation passed")

/-- `link_related_records` (main.py:215-322): configs strictly in order;
the first error stops the fold and propagates (the whole body sits in one
try block whose handlers re-raise). -/
def link_related_records (db : Database) : List (List (String × Value)) → List Event × Option String
  | [] => ([], none)
  | cfg :: rest =>
    let res := linkOneConfig db cfg
    match res.2 with
    | some e => (res.1, some e)
    | none =>
      let res2 := link_related_records db rest
      (res.1 ++ res2.1, res2.2)

/-! ### Loading configurations (`get_record_link_configs`, main.py:31-67) -/

/-- `get_primary_key_field` (main.py:134-159): the target table's own
primary field; retrieval failure propagates. -/
def get_primary_key_field (db : Database) (tid : Value) : Except String String :=
  match getTable db tid with
  | none => .error "Failed to retrieve table"
  | some t => .ok t.primaryField

/-- Building one config dict from a config-table row (main.py:52-59),
reading the row fields in source order; a missing field is a `KeyError`
that propagates.  The primary-key field comes from the target table, not
from the config row. -/
def configFromRow (db : Database) (r : Row) : Except String (List (String × Value)) :=
  match r.get "Source Table ID", r.get "Target Table ID",
        r.get "Source Table Match Field", r.get "Target Table Match Field" with
  | some sid, some tid, some smf, some tmf =>
    match get_primary_key_field db tid with
    | .error e => .error e
    | .ok pkf =>
      match r.get "Source Table Reference Field" with
      | none => .error "KeyError: Source Table Reference Field"
      | some srf =>
        .ok [("source_table_id", sid), ("target_table_id", tid),
             ("source_table_match_field", smf), ("target_table_match_field", tmf),
             ("target_table_primary_key_field", .str pkf),
             ("source_table_reference_field", srf)]
  | _, _, _, _ => .error "KeyError: config row field"

/-- The remote boolean filter `Filter("Active", True, "boolean")`
(main.py:44): keep the rows whose Active field holds `true`. -/
def isActiveRow (r : Row) : Bool :=
  decide (r.get "Active" = some (.boolV true))

/-- The accumulation loop at main.py:51-60: one config per row, any
per-row failure propagating out of the whole fetch. -/
def configsFromRows (db : Database) : List Row → Except String (List (List (String × Value)))
  | [] => .ok []
  | r :: rs =>
    match configFromRow db r with
    | .error e => .error e
    | .ok cfg =>
      match configsFromRows db rs with
      | .error e => .error e
      | .ok cfgs => .ok (cfg :: cfgs)

/-- `get_record_link_configs` (main.py:31-67). -/
def get_record_link_configs (db : Database) (configTableId : Value) :
    Except String (List (List (String × Value))) :=
  match getTable db configTableId with
  | none => .error "Failed to retrieve config table"
  | some t => configsFromRows db (t.rows.filter isActiveRow)

/-! ### Specification-side description of the index

`specLastRowWithKey` follows the spec's words ("mapping from
normalized-key to the last Row observed with that key"): it is to be
compared with the index `buildIndexRows` computes from the source. -/

/-- Does this row contribute key `k` to the index: its match field is
present, holds non-empty text, and normalizes to `k`. -/
def rowContributes (fieldName : Value) (r : Row) (k : String) : Bool :=
  match r.getV fieldName with
  | some (.str s) => decide (s ≠ "" ∧ normalize s = k)
  | _ => false

/-- The last row of the list that contributes key `k`, if any. -/
def specLastRowWithKey (fieldName : Value) : List Row → String → Option Row
  | [], _ => none
  | r :: rest, k =>
    (specLastRowWithKey fieldName rest k).or
      (if rowContributes fieldName r k then some r else none)

/-! ### Facts about normalization -/

theorem charToNat_ofNat {n : Nat} (h : n < 55296) : (Char.ofNat n).toNat = n := by
  have hv : n.isValidChar := Or.inl h
  rw [Char.ofNat, dif_pos hv]
  rfl

/-- ASCII lower-casing neither creates nor destroys whitespace. -/
theorem isPySpace_pyToLower (c : Char) : isPySpace (pyToLower c) = isPySpace c := by
  unfold pyToLower
  split
  · rename_i h
    have h1 : (Char.ofNat (c.toNat + 32)).toNat = c.toNat + 32 :=
      charToNat_ofNat (by omega)
    have hL : isPySpace (Char.ofNat (c.toNat + 32)) = false := by
      simp [isPySpace, h1]
      omega
    have hR : isPySpace c = false := by
      simp [isPySpace]
      omega
    rw [hL, hR]
  · rfl

theorem pyToLower_idem (c : Char) : pyToLower (pyToLower c) = pyToLower c := by
  unfold pyToLower
  split
  · rename_i h
    have h1 : (Char.ofNat (c.toNat + 32)).toNat = c.toNat + 32 :=
      charToNat_ofNat (by omega)
    rw [if_neg]
    rw [h1]
    omega
  · rfl

theorem dropWhile_map_pyToLower (l : List Char) :
    (l.map pyToLower).dropWhile isPySpace = (l.dropWhile isPySpace).map pyToLower := by
  induction l with
  | nil => rfl
  | cons c t ih =>
    simp only [List.map_cons, List.dropWhile_cons, isPySpace_pyToLower]
    split
    · exact ih
    · rfl

theorem rdropWhile_map_pyToLower (l : List Char) :
    List.rdropWhile isPySpace (l.map pyToLower) =
      (List.rdropWhile isPySpace l).map pyToLower := by
  unfold List.rdropWhile
  rw [← List.map_reverse, dropWhile_map_pyToLower, List.map_reverse]

theorem stripChars_map_pyToLower (l : List Char) :
    stripChars (l.map pyToLower) = (stripChars l).map pyToLower := by
  unfold stripChars
  rw [dropWhile_map_pyToLower, rdropWhile_map_pyToLower]

/-- A stripped character list has no leading whitespace left. -/
theorem stripChars_dropWhile (l : List Char) :
    (stripChars l).dropWhile isPySpace = stripChars l := by
  unfold stripChars
  obtain ⟨t, ht⟩ : ∃ t, List.dropWhile isPySpace l =
      List.rdropWhile isPySpace (List.dropWhile isPySpace l) ++ t := by
    obtain ⟨t', ht'⟩ :=
      List.dropWhile_suffix (l := (List.dropWhile isPySpace l).reverse) isPySpace
    refine ⟨t'.reverse, ?_⟩
    have := congrArg List.reverse ht'
    simpa [List.rdropWhile] using this.symm
  cases hy : List.rdropWhile isPySpace (List.dropWhile isPySpace l) with
  | nil => simp
  | cons a y' =>
    have hne : List.dropWhile isPySpace l ≠ [] := by
      rw [ht, hy]
      simp
    have hpa := List.head_dropWhile_not isPySpace l hne
    have hq : (List.dropWhile isPySpace l).head? = some a := by
      rw [ht, hy]
      rfl
    rw [List.head?_eq_head hne] at hq
    rw [Option.some.inj hq] at hpa
    simp [List.dropWhile_cons, hpa]

theorem stripChars_idem (l : List Char) : stripChars (stripChars l) = stripChars l := by
  show List.rdropWhile isPySpace ((stripChars l).dropWhile isPySpace) = stripChars l
  rw [stripChars_dropWhile]
  show List.rdropWhile isPySpace (List.rdropWhile isPySpace (l.dropWhile isPySpace)) = _
  rw [List.rdropWhile_idempotent]
  rfl

theorem normalize_idem (s : String) : normalize (normalize s) = normalize s := by
  show String.mk ((stripChars ((stripChars s.data).map pyToLower)).map pyToLower) = _
  rw [stripChars_map_pyToLower, stripChars_idem, List.map_map]
  show String.mk ((stripChars s.data).map (pyToLower ∘ pyToLower)) = _
  have : pyToLower ∘ pyToLower = pyToLower := by
    funext c
    exact pyToLower_idem c
  rw [this]
  rfl

/-! ### Facts about the index -/

theorem indexLookup_removeKey_self (idx : Index) (k : String) :
    indexLookup (removeKey idx k) k = none := by
  induction idx with
  | nil => rfl
  | cons p idx ih =>
    simp only [removeKey]
    split
    · exact ih
    · rename_i h
      simp only [indexLookup, if_neg h]
      exact ih

theorem indexLookup_removeKey_ne (idx : Index) {k k' : String} (h : k ≠ k') :
    indexLookup (removeKey idx k) k' = indexLookup idx k' := by
  induction idx with
  | nil => rfl
  | cons p idx ih =>
    simp only [removeKey, indexLookup]
    by_cases h1 : p.1 = k
    · rw [if_pos h1, ih, if_neg]
      rw [h1]
      exact h
    · rw [if_neg h1]
      simp only [indexLookup]
      split
      · rfl
      · exact ih

theorem indexLookup_insert (idx : Index) (k k' : String) (r : Row) :
    indexLookup (indexInsert idx k r) k' =
      if k = k' then some r else indexLookup idx k' := by
  unfold indexInsert
  simp only [indexLookup]
  by_cases h : k = k'
  · rw [if_pos h, if_pos h]
  · rw [if_neg h, if_neg h, indexLookup_removeKey_ne idx h]

theorem removeKey_keys_sublist (idx : Index) (k : String) :
    ((removeKey idx k).map Prod.fst).Sublist (idx.map Prod.fst) := by
  induction idx with
  | nil => simp [removeKey]
  | cons p idx ih =>
    simp only [removeKey]
    split
    · exact ih.cons _
    · simp only [List.map_cons]
      exact ih.cons₂ p.1

theorem not_mem_removeKey_keys (idx : Index) (k : String) :
    k ∉ (removeKey idx k).map Prod.fst := by
  induction idx with
  | nil => simp [removeKey]
  | cons p idx ih =>
    simp only [removeKey]
    split
    · exact ih
    · rename_i h
      simp only [List.map_cons, List.mem_cons]
      rintro (h1 | h1)
      · exact h h1.symm
      · exact ih h1

theorem indexInsert_nodupKeys (idx : Index) (k : String) (r : Row)
    (h : (idx.map Prod.fst).Nodup) :
    ((indexInsert idx k r).map Prod.fst).Nodup := by
  unfold indexInsert
  simp only [List.map_cons]
  exact List.nodup_cons.mpr
    ⟨not_mem_removeKey_keys idx k, h.sublist (removeKey_keys_sublist idx k)⟩

theorem buildIndexRows_nodupKeys (fieldName : Value) :
    ∀ (rows : List Row) (idx idx' : Index),
      buildIndexRows fieldName rows idx = .ok idx' →
      (idx.map Prod.fst).Nodup → (idx'.map Prod.fst).Nodup := by
  intro rows
  induction rows with
  | nil =>
    intro idx idx' h hn
    cases h
    exact hn
  | cons r rest ih =>
    intro idx idx' h hn
    cases hget : r.getV fieldName with
    | none =>
      simp only [buildIndexRows, hget] at h
      exact ih idx idx' h hn
    | some v =>
      simp only [buildIndexRows, hget] at h
      cases htr : v.truthy with
      | false =>
        simp only [htr, Bool.false_eq_true, if_false] at h
        exact ih idx idx' h hn
      | true =>
        simp only [htr, if_true] at h
        cases v with
        | str s => exact ih _ idx' h (indexInsert_nodupKeys idx (normalize s) r hn)
        | intV n => cases h
        | boolV b => cases h
        | null => cases h

/-- The index an accumulator-passing build computes, looked up at any key:
the last contributing row of the scanned list wins, and otherwise the
accumulator shows through. -/
theorem buildIndexRows_ok_lookup (fieldName : Value) :
    ∀ (rows : List Row) (idx idx' : Index),
      buildIndexRows fieldName rows idx = .ok idx' →
      ∀ k, indexLookup idx' k =
        (specLastRowWithKey fieldName rows k).or (indexLookup idx k) := by
  intro rows
  induction rows with
  | nil =>
    intro idx idx' h k
    cases h
    simp [specLastRowWithKey]
  | cons r rest ih =>
    intro idx idx' h k
    cases hget : r.getV fieldName with
    | none =>
      simp only [buildIndexRows, hget] at h
      have hc : rowContributes fieldName r k = false := by
        simp [rowContributes, hget]
      simp only [specLastRowWithKey, hc, Bool.false_eq_true, if_false, Option.or_none]
      exact ih idx idx' h k
    | some v =>
      simp only [buildIndexRows, hget] at h
      cases htr : v.truthy with
      | false =>
        simp only [htr, Bool.false_eq_true, if_false] at h
        have hc : rowContributes fieldName r k = false := by
          cases v with
          | str s =>
            have hs : s = "" := by
              have := htr
              simp [Value.truthy] at this
              exact this
            simp [rowContributes, hget, hs]
          | intV n => simp [rowContributes, hget]
          | boolV b => simp [rowContributes, hget]
          | null => simp [rowContributes, hget]
        simp only [specLastRowWithKey, hc, Bool.false_eq_true, if_false, Option.or_none]
        exact ih idx idx' h k
      | true =>
        simp only [htr, if_true] at h
        cases v with
        | intV n => cases h
        | boolV b => cases h
        | null => cases h
        | str s =>
          have hs : s ≠ "" := by
            simpa [Value.truthy] using htr
          have := ih _ idx' h k
          rw [this, indexLookup_insert]
          have hc : rowContributes fieldName r k = decide (normalize s = k) := by
            simp [rowContributes, hget, hs]
          simp only [specLastRowWithKey, hc, Option.or_assoc]
          by_cases hk : normalize s = k
          · simp [hk]
          · simp [hk]

/-- Key-set description: the spec-side last-contributor is populated at
exactly the keys some scanned row contributes. -/
theorem specLastRowWithKey_isSome (fieldName : Value) (rows : List Row) (k : String) :
    (specLastRowWithKey fieldName rows k).isSome = true ↔
      ∃ r ∈ rows, rowContributes fieldName r k = true := by
  induction rows with
  | nil => simp [specLastRowWithKey]
  | cons r rest ih =>
    simp only [specLastRowWithKey, List.mem_cons]
    cases hspec : specLastRowWithKey fieldName rest k with
    | some r' =>
      simp only [Option.or_some, Option.isSome_some, true_iff]
      have := ih.mp (by rw [hspec]; rfl)
      obtain ⟨r'', hmem, hc⟩ := this
      exact ⟨r'', Or.inr hmem, hc⟩
    | none =>
      rw [hspec] at ih
      simp only [Option.none_or]
      by_cases hc : rowContributes fieldName r k = true
      · simp [hc]
      · rw [if_neg hc]
        simp only [Option.isSome_none, Bool.false_eq_true, false_iff]
        rintro ⟨r'', hmem | hmem, hcc⟩
        · rw [hmem] at hcc
          exact hc hcc
        · have := ih.mpr ⟨r'', hmem, hcc⟩
          simp at this

/-! ### Facts about the per-row linking loop -/

theorem linkRows_missing_step (mf rf pf : Value) (idx : Index) (row : Row)
    (rest : List Row) (hget : row.getV mf = none) :
    linkRows mf rf pf idx (row :: rest) = ([], some "KeyError: source match field") := by
  simp [linkRows, hget]

theorem linkRows_nonText_step (mf rf pf : Value) (idx : Index) (row : Row)
    (rest : List Row) {v : Value} (hget : row.getV mf = some v)
    (hv : ∀ s, v ≠ .str s) :
    linkRows mf rf pf idx (row :: rest) =
      ([], some "AttributeError: value has no method strip") := by
  cases v with
  | str s => exact absurd rfl (hv s)
  | intV n => simp [linkRows, hget]
  | boolV b => simp [linkRows, hget]
  | null => simp [linkRows, hget]

theorem linkRows_noMatch_step (mf rf pf : Value) (idx : Index) (row : Row)
    (rest : List Row) {s : String} (hget : row.getV mf = some (.str s))
    (hlk : indexLookup idx (normalize s) = none) :
    linkRows mf rf pf idx (row :: rest) =
      (.noMatchWarning row.id (normalize s) :: (linkRows mf rf pf idx rest).1,
       (linkRows mf rf pf idx rest).2) := by
  simp [linkRows, hget, hlk]

theorem linkRows_match_step (mf rf pf : Value) (idx : Index) (row : Row)
    (rest : List Row) {s : String} {trow : Row} {pv : Value}
    (hget : row.getV mf = some (.str s))
    (hlk : indexLookup idx (normalize s) = some trow)
    (hpk : trow.getV pf = some pv) :
    linkRows mf rf pf idx (row :: rest) =
      (.rowWrite row.id rf pv :: .linkSuccess row.id trow.id ::
        (linkRows mf rf pf idx rest).1,
       (linkRows mf rf pf idx rest).2) := by
  simp [linkRows, hget, hlk, hpk]

theorem linkRows_pkMissing_step (mf rf pf : Value) (idx : Index) (row : Row)
    (rest : List Row) {s : String} {trow : Row}
    (hget : row.getV mf = some (.str s))
    (hlk : indexLookup idx (normalize s) = some trow)
    (hpk : trow.getV pf = none) :
    linkRows mf rf pf idx (row :: rest) =
      ([], some "KeyError: target primary key field") := by
  simp [linkRows, hget, hlk, hpk]

/-- If a block of rows links without error, a longer queue splits into the
block's events followed by the remainder's outcome. -/
theorem linkRows_append (mf rf pf : Value) (idx : Index) (pre post : List Row)
    (h : (linkRows mf rf pf idx pre).2 = none) :
    linkRows mf rf pf idx (pre ++ post) =
      ((linkRows mf rf pf idx pre).1 ++ (linkRows mf rf pf idx post).1,
       (linkRows mf rf pf idx post).2) := by
  induction pre with
  | nil => simp [linkRows]
  | cons row pre ih =>
    cases hget : row.getV mf with
    | none => rw [linkRows_missing_step mf rf pf idx row pre hget] at h; cases h
    | some v =>
      cases v with
      | str s =>
        cases hlk : indexLookup idx (normalize s) with
        | some trow =>
          cases hpk : trow.getV pf with
          | none =>
            rw [linkRows_pkMissing_step mf rf pf idx row pre hget hlk hpk] at h
            cases h
          | some pv =>
            rw [linkRows_match_step mf rf pf idx row pre hget hlk hpk] at h
            rw [List.cons_append,
              linkRows_match_step mf rf pf idx row (pre ++ post) hget hlk hpk,
              linkRows_match_step mf rf pf idx row pre hget hlk hpk, ih h]
            simp
        | none =>
          rw [linkRows_noMatch_step mf rf pf idx row pre hget hlk] at h
          rw [List.cons_append,
            linkRows_noMatch_step mf rf pf idx row (pre ++ post) hget hlk,
            linkRows_noMatch_step mf rf pf idx row pre hget hlk, ih h]
          simp
      | intV n =>
        rw [linkRows_nonText_step mf rf pf idx row pre hget (by intro s h; cases h)] at h
        cases h
      | boolV b =>
        rw [linkRows_nonText_step mf rf pf idx row pre hget (by intro s h; cases h)] at h
        cases h
      | null =>
        rw [linkRows_nonText_step mf rf pf idx row pre hget (by intro s h; cases h)] at h
        cases h

/-- Every remote write the loop performs concerns a row of the queue. -/
theorem linkRows_write_mem_ids (mf rf pf : Value) (idx : Index) :
    ∀ (q : List Row) (i : Nat) (f v : Value),
      Event.rowWrite i f v ∈ (linkRows mf rf pf idx q).1 → i ∈ q.map Row.id := by
  intro q
  induction q with
  | nil =>
    intro i f v h
    simp [linkRows] at h
  | cons row rest ih =>
    intro i f v h
    cases hget : row.getV mf with
    | none =>
      rw [linkRows_missing_step mf rf pf idx row rest hget] at h
      simp at h
    | some w =>
      cases w with
      | str s =>
        cases hlk : indexLookup idx (normalize s) with
        | some trow =>
          cases hpk : trow.getV pf with
          | none =>
            rw [linkRows_pkMissing_step mf rf pf idx row rest hget hlk hpk] at h
            simp at h
          | some pv =>
            rw [linkRows_match_step mf rf pf idx row rest hget hlk hpk] at h
            rcases List.mem_cons.mp h with h1 | h2
            · injection h1 with hi hf hv
              rw [hi]
              simp
            · rcases List.mem_cons.mp h2 with h3 | h4
              · simp at h3
              · simp only [List.map_cons, List.mem_cons]
                exact Or.inr (ih i f v h4)
        | none =>
          rw [linkRows_noMatch_step mf rf pf idx row rest hget hlk] at h
          rcases List.mem_cons.mp h with h1 | h2
          · simp at h1
          · simp only [List.map_cons, List.mem_cons]
            exact Or.inr (ih i f v h2)
      | intV n =>
        rw [linkRows_nonText_step mf rf pf idx row rest hget (by intro s hs; cases hs)] at h
        simp at h
      | boolV b =>
        rw [linkRows_nonText_step mf rf pf idx row rest hget (by intro s hs; cases hs)] at h
        simp at h
      | null =>
        rw [linkRows_nonText_step mf rf pf idx row rest hget (by intro s hs; cases hs)] at h
        simp at h

/-- Every remote write the loop performs updates the reference field and
no other. -/
theorem linkRows_write_field (mf rf pf : Value) (idx : Index) :
    ∀ (q : List Row) (i : Nat) (f v : Value),
      Event.rowWrite i f v ∈ (linkRows mf rf pf idx q).1 → f = rf := by
  intro q
  induction q with
  | nil =>
    intro i f v h
    simp [linkRows] at h
  | cons row rest ih =>
    intro i f v h
    cases hget : row.getV mf with
    | none =>
      rw [linkRows_missing_step mf rf pf idx row rest hget] at h
      simp at h
    | some w =>
      cases w with
      | str s =>
        cases hlk : indexLookup idx (normalize s) with
        | some trow =>
          cases hpk : trow.getV pf with
          | none =>
            rw [linkRows_pkMissing_step mf rf pf idx row rest hget hlk hpk] at h
            simp at h
          | some pv =>
            rw [linkRows_match_step mf rf pf idx row rest hget hlk hpk] at h
            rcases List.mem_cons.mp h with h1 | h2
            · injection h1
            · rcases List.mem_cons.mp h2 with h3 | h4
              · simp at h3
              · exact ih i f v h4
        | none =>
          rw [linkRows_noMatch_step mf rf pf idx row rest hget hlk] at h
          rcases List.mem_cons.mp h with h1 | h2
          · simp at h1
          · exact ih i f v h2
      | intV n =>
        rw [linkRows_nonText_step mf rf pf idx row rest hget (by intro s hs; cases hs)] at h
        simp at h
      | boolV b =>
        rw [linkRows_nonText_step mf rf pf idx row rest hget (by intro s hs; cases hs)] at h
        simp at h
      | null =>
        rw [linkRows_nonText_step mf rf pf idx row rest hget (by intro s hs; cases hs)] at h
        simp at h

/-- A matched row of a loop that finishes without error gets its write
and its success log into the trace. -/
theorem linkRows_mem_write (mf rf pf : Value) (idx : Index) :
    ∀ (q : List Row) (row : Row) (s : String) (trow : Row) (pv : Value),
      row ∈ q → row.getV mf = some (.str s) →
      indexLookup idx (normalize s) = some trow → trow.getV pf = some pv →
      (linkRows mf rf pf idx q).2 = none →
      Event.rowWrite row.id rf pv ∈ (linkRows mf rf pf idx q).1 ∧
      Event.linkSuccess row.id trow.id ∈ (linkRows mf rf pf idx q).1 := by
  intro q
  induction q with
  | nil =>
    intro row s trow pv hmem
    cases hmem
  | cons rhd rest ih =>
    intro row s trow pv hmem hget hlk hpk hsnd
    rcases List.mem_cons.mp hmem with heq | hmem'
    · rw [heq] at hget ⊢
      rw [linkRows_match_step mf rf pf idx rhd rest hget hlk hpk]
      simp
    · cases hget0 : rhd.getV mf with
      | none =>
        rw [linkRows_missing_step mf rf pf idx rhd rest hget0] at hsnd
        cases hsnd
      | some w =>
        cases w with
        | str s0 =>
          cases hlk0 : indexLookup idx (normalize s0) with
          | some trow0 =>
            cases hpk0 : trow0.getV pf with
            | none =>
              rw [linkRows_pkMissing_step mf rf pf idx rhd rest hget0 hlk0 hpk0] at hsnd
              cases hsnd
            | some pv0 =>
              rw [linkRows_match_step mf rf pf idx rhd rest hget0 hlk0 hpk0] at hsnd ⊢
              have := ih row s trow pv hmem' hget hlk hpk hsnd
              exact ⟨List.mem_cons_of_mem _ (List.mem_cons_of_mem _ this.1),
                     List.mem_cons_of_mem _ (List.mem_cons_of_mem _ this.2)⟩
          | none =>
            rw [linkRows_noMatch_step mf rf pf idx rhd rest hget0 hlk0] at hsnd ⊢
            have := ih row s trow pv hmem' hget hlk hpk hsnd
            exact ⟨List.mem_cons_of_mem _ this.1, List.mem_cons_of_mem _ this.2⟩
        | intV n =>
          rw [linkRows_nonText_step mf rf pf idx rhd rest hget0 (by intro u hu; cases hu)] at hsnd
          cases hsnd
        | boolV b =>
          rw [linkRows_nonText_step mf rf pf idx rhd rest hget0 (by intro u hu; cases hu)] at hsnd
          cases hsnd
        | null =>
          rw [linkRows_nonText_step mf rf pf idx rhd rest hget0 (by intro u hu; cases hu)] at hsnd
          cases hsnd

/-- A row that finds no match in the index produces no remote write
anywhere in the trace (row identifiers being distinct in the queue). -/
theorem linkRows_noMatch_no_write (mf rf pf : Value) (idx : Index)
    (pre post : List Row) (row : Row) {s : String}
    (hpre : (linkRows mf rf pf idx pre).2 = none)
    (hget : row.getV mf = some (.str s))
    (hlk : indexLookup idx (normalize s) = none)
    (hnodup : ((pre ++ row :: post).map Row.id).Nodup) :
    ∀ f v, Event.rowWrite row.id f v ∉ (linkRows mf rf pf idx (pre ++ row :: post)).1 := by
  have hid : row.id ∉ pre.map Row.id ∧ row.id ∉ post.map Row.id := by
    rw [List.map_append, List.map_cons] at hnodup
    have hmid := List.nodup_middle.mp hnodup
    rcases List.nodup_cons.mp hmid with ⟨hnm, _⟩
    constructor
    · intro hin
      exact hnm (List.mem_append.mpr (Or.inl hin))
    · intro hin
      exact hnm (List.mem_append.mpr (Or.inr hin))
  intro f v hmem
  rw [linkRows_append mf rf pf idx pre (row :: post) hpre,
      linkRows_noMatch_step mf rf pf idx row post hget hlk] at hmem
  simp only [List.mem_append, List.mem_cons] at hmem
  rcases hmem with h1 | h3 | h4
  · exact hid.1 (linkRows_write_mem_ids mf rf pf idx pre row.id f v h1)
  · simp at h3
  · exact hid.2 (linkRows_write_mem_ids mf rf pf idx post row.id f v h4)

/-! ### Facts about the config loop -/

theorem firstMissingField_eq_none (cfg : List (String × Value))
    {sid tid smf tmf pkf srf : Value}
    (h1 : getCfg cfg "source_table_id" = some sid)
    (h2 : getCfg cfg "target_table_id" = some tid)
    (h3 : getCfg cfg "source_table_match_field" = some smf)
    (h4 : getCfg cfg "target_table_match_field" = some tmf)
    (h5 : getCfg cfg "target_table_primary_key_field" = some pkf)
    (h6 : getCfg cfg "source_table_reference_field" = some srf) :
    firstMissingField cfg = none := by
  simp [firstMissingField, requiredFields, List.find?, h1, h2, h3, h4, h5, h6]

/-- With all six keys present, one config iteration is the valid-config
body applied to the six extracted values. -/
theorem linkOneConfig_valid (db : Database) (cfg : List (String × Value))
    {sid tid smf tmf pkf srf : Value}
    (h1 : getCfg cfg "source_table_id" = some sid)
    (h2 : getCfg cfg "target_table_id" = some tid)
    (h3 : getCfg cfg "source_table_match_field" = some smf)
    (h4 : getCfg cfg "target_table_match_field" = some tmf)
    (h5 : getCfg cfg "target_table_primary_key_field" = some pkf)
    (h6 : getCfg cfg "source_table_reference_field" = some srf) :
    linkOneConfig db cfg = linkValidConfig db sid tid smf tmf pkf srf := by
  rw [linkOneConfig, firstMissingField_eq_none cfg h1 h2 h3 h4 h5 h6]
  simp [h1, h2, h3, h4, h5, h6]

theorem run_cons_err (db : Database) (cfg : List (String × Value))
    (rest : List (List (String × Value))) {e : String}
    (h : (linkOneConfig db cfg).2 = some e) :
    link_related_records db (cfg :: rest) = ((linkOneConfig db cfg).1, some e) := by
  simp [link_related_records, h]

theorem run_cons_ok (db : Database) (cfg : List (String × Value))
    (rest : List (List (String × Value)))
    (h : (linkOneConfig db cfg).2 = none) :
    link_related_records db (cfg :: rest) =
      ((linkOneConfig db cfg).1 ++ (link_related_records db rest).1,
       (link_related_records db rest).2) := by
  simp [link_related_records, h]

/-- Configs are consumed strictly left to right: a block of successful
configs contributes its traces in order, and what follows is unaffected
by the block. -/
theorem run_append (db : Database) (pre rest : List (List (String × Value)))
    (h : ∀ c ∈ pre, (linkOneConfig db c).2 = none) :
    link_related_records db (pre ++ rest) =
      ((pre.map (fun c => (linkOneConfig db c).1)).flatten ++
        (link_related_records db rest).1,
       (link_related_records db rest).2) := by
  induction pre with
  | nil => simp
  | cons c pre ih =>
    have hc : (linkOneConfig db c).2 = none := h c (by simp)
    have hrest : ∀ c' ∈ pre, (linkOneConfig db c').2 = none := by
      intro c' hc'
      exact h c' (by simp [hc'])
    rw [List.cons_append, run_cons_ok db c (pre ++ rest) hc, ih hrest]
    simp

/-- Every config the loader returns originates in some scanned row. -/
theorem configsFromRows_mem (db : Database) :
    ∀ (rows : List Row) (out : List (List (String × Value))),
      configsFromRows db rows = .ok out →
      ∀ cfg ∈ out, ∃ r ∈ rows, configFromRow db r = .ok cfg := by
  intro rows
  induction rows with
  | nil =>
    intro out h cfg hcfg
    cases h
    cases hcfg
  | cons r rs ih =>
    intro out h cfg hcfg
    cases hfr : configFromRow db r with
    | error e =>
      simp only [configsFromRows, hfr] at h
      cases h
    | ok c =>
      simp only [configsFromRows, hfr] at h
      cases hrs : configsFromRows db rs with
      | error e => rw [hrs] at h; cases h
      | ok cs =>
        rw [hrs] at h
        cases h
        rcases List.mem_cons.mp hcfg with h1 | h2
        · refine ⟨r, by simp, ?_⟩
          rw [h1]
          exact hfr
        · obtain ⟨r', hr', hfr'⟩ := ih cs hrs cfg h2
          exact ⟨r', List.mem_cons_of_mem _ hr', hfr'⟩

/-- With a valid config, a successful non-empty fetch and a successful
index build, one config iteration is exactly the per-row loop. -/
theorem linkOneConfig_run (db : Database) (cfg : List (String × Value))
    (sid tid smf tmf pkf srf : Value) (queue : List Row) (idx : Index)
    (h1 : getCfg cfg "source_table_id" = some sid)
    (h2 : getCfg cfg "target_table_id" = some tid)
    (h3 : getCfg cfg "source_table_match_field" = some smf)
    (h4 : getCfg cfg "target_table_match_field" = some tmf)
    (h5 : getCfg cfg "target_table_primary_key_field" = some pkf)
    (h6 : getCfg cfg "source_table_reference_field" = some srf)
    (hfetch : filter_baserow_table db sid srf = .ok queue)
    (hidx : create_index_from_table db tid tmf = .ok idx)
    (hne : queue ≠ []) :
    linkOneConfig db cfg = linkRows smf srf pkf idx queue := by
  rw [linkOneConfig_valid db cfg h1 h2 h3 h4 h5 h6]
  cases queue with
  | nil => exact absurd rfl hne
  | cons q qs => simp [linkValidConfig, hfetch, hidx]

/-! ### The claims -/

/-- C5: normalization is a pure, deterministic, idempotent trim-and-lower
function: `normalize " Foo " = "foo"` and `normalize (normalize x) =
normalize x` for every text `x`; and the very same `normalize` under whose
result the index construction files a contributing target row is the key
function of the linking pass (the loop `linkRows` looks up
`normalize s`), so source-match and target-match values go through one
function. -/
theorem c5_normalize_idempotent :
    normalize " Foo " = "foo" ∧
    (∀ x : String, normalize (normalize x) = normalize x) ∧
    (∀ (fn : Value) (r : Row) (s : String) (idx : Index),
      r.getV fn = some (.str s) → s ≠ "" →
      buildIndexRows fn [r] idx = .ok (indexInsert idx (normalize s) r)) := by
  refine ⟨by decide, normalize_idem, ?_⟩
  intro fn r s idx hget hs
  simp [buildIndexRows, hget, Value.truthy, hs]

/-- Witness for C5 at concrete inputs. -/
theorem c5_witness :
    normalize " Foo " = "foo" ∧
    normalize (normalize " X ") = normalize " X " ∧
    buildIndexRows (.str "m") [⟨1, [("m", .str " A ")]⟩] [] =
      .ok (indexInsert [] (normalize " A ") ⟨1, [("m", .str " A ")]⟩) :=
  ⟨c5_normalize_idempotent.1, c5_normalize_idempotent.2.1 " X ",
   c5_normalize_idempotent.2.2 (.str "m") ⟨1, [("m", .str " A ")]⟩ " A " []
     (by decide) (by decide)⟩

/-- C2: a successful index construction maps every key to the last
scanned row contributing that key (duplicates are overwritten), its keys
are exactly the normalized values of the rows whose match field is
present and non-empty (truthy), and it carries at most one entry per
key. -/
theorem c2_index_last_row_wins (fieldName : Value) (rows : List Row) (idx : Index)
    (hok : buildIndexRows fieldName rows [] = .ok idx) :
    (∀ k, indexLookup idx k = specLastRowWithKey fieldName rows k) ∧
    (∀ k, (indexLookup idx k).isSome = true ↔
      ∃ r ∈ rows, rowContributes fieldName r k = true) ∧
    (idx.map Prod.fst).Nodup := by
  have hlk : ∀ k, indexLookup idx k = specLastRowWithKey fieldName rows k := by
    intro k
    have := buildIndexRows_ok_lookup fieldName rows [] idx hok k
    simpa [indexLookup, Option.or_none] using this
  refine ⟨hlk, ?_, buildIndexRows_nodupKeys fieldName rows [] idx hok (by simp)⟩
  intro k
  rw [hlk k]
  exact specLastRowWithKey_isSome fieldName rows k

def exampleField : Value := .str "m"

def exampleRows : List Row :=
  [⟨1, [("m", .str "A")]⟩, ⟨2, [("m", .str " a ")]⟩, ⟨3, [("m", .str "")]⟩,
   ⟨4, [("m", .null)]⟩, ⟨5, [("m", .str "B")]⟩]

def exampleIdx : Index :=
  [("b", ⟨5, [("m", .str "B")]⟩), ("a", ⟨2, [("m", .str " a ")]⟩)]

/-- Witness for C2: the spec's own example, match values
`["A", " a ", "", null, "B"]`, giving exactly the keys `"a"` and `"b"`,
the row for `"a"` being the later of the two contributors. -/
theorem c2_witness :
    buildIndexRows exampleField exampleRows [] = .ok exampleIdx ∧
    indexLookup exampleIdx "a" = specLastRowWithKey exampleField exampleRows "a" ∧
    indexLookup exampleIdx "b" = specLastRowWithKey exampleField exampleRows "b" ∧
    (exampleIdx.map Prod.fst).Nodup ∧
    exampleIdx.map Prod.fst = ["b", "a"] :=
  ⟨by decide,
   (c2_index_last_row_wins exampleField exampleRows exampleIdx (by decide)).1 "a",
   (c2_index_last_row_wins exampleField exampleRows exampleIdx (by decide)).1 "b",
   (c2_index_last_row_wins exampleField exampleRows exampleIdx (by decide)).2.2,
   by decide⟩

/-- C1: for every configuration, if the config's six fields are in place,
the fetch produced the work queue and the index build succeeded, then any
queue row whose normalized match key is in the index — in a run of that
config that finishes without error — receives a remote update of exactly
its reference field with the indexed target row's primary-key value, and
a success log follows; every write of the whole iteration touches the
reference field only. -/
theorem c1_link_writes_reference (db : Database) (cfg : List (String × Value))
    (sid tid smf tmf pkf srf : Value) (queue : List Row) (idx : Index)
    (row : Row) (s : String) (trow : Row) (pv : Value)
    (h1 : getCfg cfg "source_table_id" = some sid)
    (h2 : getCfg cfg "target_table_id" = some tid)
    (h3 : getCfg cfg "source_table_match_field" = some smf)
    (h4 : getCfg cfg "target_table_match_field" = some tmf)
    (h5 : getCfg cfg "target_table_primary_key_field" = some pkf)
    (h6 : getCfg cfg "source_table_reference_field" = some srf)
    (hfetch : filter_baserow_table db sid srf = .ok queue)
    (hidx : create_index_from_table db tid tmf = .ok idx)
    (hrow : row ∈ queue)
    (hget : row.getV smf = some (.str s))
    (hlk : indexLookup idx (normalize s) = some trow)
    (hpk : trow.getV pkf = some pv)
    (hdone : (linkOneConfig db cfg).2 = none) :
    Event.rowWrite row.id srf pv ∈ (linkOneConfig db cfg).1 ∧
    Event.linkSuccess row.id trow.id ∈ (linkOneConfig db cfg).1 ∧
    (∀ i f v, Event.rowWrite i f v ∈ (linkOneConfig db cfg).1 → f = srf) := by
  have heq : linkOneConfig db cfg = linkRows smf srf pkf idx queue :=
    linkOneConfig_run db cfg sid tid smf tmf pkf srf queue idx
      h1 h2 h3 h4 h5 h6 hfetch hidx (List.ne_nil_of_mem hrow)
  rw [heq] at hdone ⊢
  have hm := linkRows_mem_write smf srf pkf idx queue row s trow pv hrow hget hlk hpk hdone
  exact ⟨hm.1, hm.2, fun i f v hmem => linkRows_write_field smf srf pkf idx queue i f v hmem⟩

def exSourceTable : Table :=
  ⟨[⟨11, [("name", .str "B"), ("ref", .str "")]⟩], "name"⟩

def exTargetTable : Table :=
  ⟨[⟨42, [("tname", .str "b"), ("ID", .intV 42)]⟩], "ID"⟩

def exDb : Database := [(.intV 1, exSourceTable), (.intV 2, exTargetTable)]

def exCfg : List (String × Value) :=
  [("source_table_id", .intV 1), ("target_table_id", .intV 2),
   ("source_table_match_field", .str "name"), ("target_table_match_field", .str "tname"),
   ("target_table_primary_key_field", .str "ID"), ("source_table_reference_field", .str "ref")]

/-- Witness for C1: the spec's example — source row (id 11) with empty
reference field and match value "B", target index "b" -> row 42 whose
primary key is 42: the reference field is written with 42. -/
theorem c1_witness :
    Event.rowWrite 11 (.str "ref") (.intV 42) ∈ (linkOneConfig exDb exCfg).1 ∧
    Event.linkSuccess 11 42 ∈ (linkOneConfig exDb exCfg).1 := by
  have h := c1_link_writes_reference exDb exCfg (.intV 1) (.intV 2) (.str "name")
    (.str "tname") (.str "ID") (.str "ref")
    [⟨11, [("name", .str "B"), ("ref", .str "")]⟩]
    [("b", ⟨42, [("tname", .str "b"), ("ID", .intV 42)]⟩)]
    ⟨11, [("name", .str "B"), ("ref", .str "")]⟩ "B"
    ⟨42, [("tname", .str "b"), ("ID", .intV 42)]⟩ (.intV 42)
    (by decide) (by decide) (by decide) (by decide) (by decide) (by decide)
    (by decide) (by decide) (by decide) (by decide) (by decide) (by decide)
    (by decide)
  exact ⟨h.1, h.2.1⟩

/-- C3: configs run strictly in order with no failure isolation: when the
configs before `c` succeed and `c` fails with any error, the whole run
ends with the events of the prefix and of `c` and with `c`'s error — the
configs after `c` contribute nothing (they are never processed; the
result does not depend on `post` at all). -/
theorem c3_no_failure_isolation (db : Database) (pre : List (List (String × Value)))
    (c : List (String × Value)) (post : List (List (String × Value))) (e : String)
    (hpre : ∀ c' ∈ pre, (linkOneConfig db c').2 = none)
    (hfail : (linkOneConfig db c).2 = some e) :
    link_related_records db (pre ++ c :: post) =
      ((pre.map (fun c' => (linkOneConfig db c').1)).flatten ++ (linkOneConfig db c).1,
       some e) := by
  rw [run_append db pre (c :: post) hpre, run_cons_err db c post hfail]

def exBadCfg : List (String × Value) :=
  [("source_table_id", .intV 9), ("target_table_id", .intV 2),
   ("source_table_match_field", .str "name"), ("target_table_match_field", .str "tname"),
   ("target_table_primary_key_field", .str "ID"), ("source_table_reference_field", .str "ref")]

/-- Witness for C3: the spec's example — the first of two configs fails
with a transport error while fetching its work queue (its source table,
id 9, does not exist), and the second config is never processed: the run
carries no event of it. -/
theorem c3_witness :
    link_related_records exDb [exBadCfg, exCfg] = ([], some "Table not found") := by
  have h := c3_no_failure_isolation exDb [] exBadCfg [exCfg] "Table not found"
    (by intro c' hc'; cases hc') (by decide)
  simpa using h

/-- C4: in the linking pass a work-queue row whose match field is missing
or whose value is not text stops the loop with an error that aborts the
whole run: the config iteration ends in an error and the full run
propagates exactly that error, processing no further config.  Index
building, in contrast, skips a row whose match field is missing and
continues. -/
theorem c4_unguarded_row_aborts (db : Database) (cfg : List (String × Value))
    (sid tid smf tmf pkf srf : Value) (idx : Index)
    (pre post : List Row) (row : Row) (rest : List (List (String × Value)))
    (h1 : getCfg cfg "source_table_id" = some sid)
    (h2 : getCfg cfg "target_table_id" = some tid)
    (h3 : getCfg cfg "source_table_match_field" = some smf)
    (h4 : getCfg cfg "target_table_match_field" = some tmf)
    (h5 : getCfg cfg "target_table_primary_key_field" = some pkf)
    (h6 : getCfg cfg "source_table_reference_field" = some srf)
    (hfetch : filter_baserow_table db sid srf = .ok (pre ++ row :: post))
    (hidx : create_index_from_table db tid tmf = .ok idx)
    (hpre : (linkRows smf srf pkf idx pre).2 = none)
    (hbad : row.getV smf = none ∨ ∃ v, row.getV smf = some v ∧ ∀ u, v ≠ .str u) :
    (∃ e, (linkOneConfig db cfg).2 = some e ∧
      link_related_records db (cfg :: rest) = ((linkOneConfig db cfg).1, some e)) ∧
    (∀ (fn : Value) (r : Row) (rows : List Row) (idx0 : Index),
      r.getV fn = none →
      buildIndexRows fn (r :: rows) idx0 = buildIndexRows fn rows idx0) := by
  constructor
  · have heq : linkOneConfig db cfg = linkRows smf srf pkf idx (pre ++ row :: post) :=
      linkOneConfig_run db cfg sid tid smf tmf pkf srf (pre ++ row :: post) idx
        h1 h2 h3 h4 h5 h6 hfetch hidx (by simp)
    have hsnd : ∃ e, (linkRows smf srf pkf idx (pre ++ row :: post)).2 = some e := by
      rw [linkRows_append smf srf pkf idx pre (row :: post) hpre]
      rcases hbad with hmiss | ⟨v, hv, hnstr⟩
      · rw [linkRows_missing_step smf srf pkf idx row post hmiss]
        exact ⟨_, rfl⟩
      · rw [linkRows_nonText_step smf srf pkf idx row post hv hnstr]
        exact ⟨_, rfl⟩
    obtain ⟨e, he⟩ := hsnd
    refine ⟨e, ?_, ?_⟩
    · rw [heq]
      exact he
    · exact run_cons_err db cfg rest (by rw [heq]; exact he)
  · intro fn r rows idx0 hnone
    simp [buildIndexRows, hnone]

def exBadSourceTable : Table :=
  ⟨[⟨13, [("ref", .str "")]⟩], "name"⟩

def exDb4 : Database := [(.intV 1, exBadSourceTable), (.intV 2, exTargetTable)]

/-- Witness for C4: a work-queue row (id 13) lacking the match field
"name" aborts the config and the whole run, while index building skips a
row lacking its field. -/
theorem c4_witness :
    (∃ e, (linkOneConfig exDb4 exCfg).2 = some e ∧
      link_related_records exDb4 [exCfg] = ((linkOneConfig exDb4 exCfg).1, some e)) ∧
    buildIndexRows (.str "m") [⟨13, [("ref", .str "")]⟩] [] =
      buildIndexRows (.str "m") [] [] := by
  have h := c4_unguarded_row_aborts exDb4 exCfg (.intV 1) (.intV 2) (.str "name")
    (.str "tname") (.str "ID") (.str "ref")
    [("b", ⟨42, [("tname", .str "b"), ("ID", .intV 42)]⟩)]
    [] [] ⟨13, [("ref", .str "")]⟩ []
    (by decide) (by decide) (by decide) (by decide) (by decide) (by decide)
    (by decide) (by decide) rfl (Or.inl (by decide))
  exact ⟨h.1, h.2 (.str "m") ⟨13, [("ref", .str "")]⟩ [] [] (by decide)⟩

/-- C6: when the source table holds no row with an empty reference field,
the fetch returns an empty sequence (not an error), the config iteration
emits only the empty-queue warning and succeeds, and the run moves on to
the remaining configs.  The statement puts no assumption on the target
table — the database may not even contain it — so no target-table read
and no index build can have taken place, and the trace shows no write. -/
theorem c6_empty_queue_short_circuit (db : Database) (cfg : List (String × Value))
    (sid tid smf tmf pkf srf : Value) (st : Table)
    (rest : List (List (String × Value)))
    (h1 : getCfg cfg "source_table_id" = some sid)
    (h2 : getCfg cfg "target_table_id" = some tid)
    (h3 : getCfg cfg "source_table_match_field" = some smf)
    (h4 : getCfg cfg "target_table_match_field" = some tmf)
    (h5 : getCfg cfg "target_table_primary_key_field" = some pkf)
    (h6 : getCfg cfg "source_table_reference_field" = some srf)
    (hs : getTable db sid = some st)
    (hf : st.rows.filter (rowMatchesEmptyFilter srf) = []) :
    filter_baserow_table db sid srf = .ok [] ∧
    linkOneConfig db cfg = ([.emptyQueueWarning sid], none) ∧
    link_related_records db (cfg :: rest) =
      (.emptyQueueWarning sid :: (link_related_records db rest).1,
       (link_related_records db rest).2) := by
  have hfe : filter_baserow_table db sid srf = .ok [] := by
    simp [filter_baserow_table, hs, hf]
  have hone : linkOneConfig db cfg = ([.emptyQueueWarning sid], none) := by
    rw [linkOneConfig_valid db cfg h1 h2 h3 h4 h5 h6]
    simp [linkValidConfig, hfe]
  refine ⟨hfe, hone, ?_⟩
  rw [run_cons_ok db cfg rest (by rw [hone]), hone]
  simp

def exFullSourceTable : Table :=
  ⟨[⟨21, [("name", .str "B"), ("ref", .intV 42)]⟩], "name"⟩

def exDb2 : Database := [(.intV 1, exFullSourceTable)]

/-- Witness for C6: every source row already has a reference value, and
the database does not even contain the target table (id 2), yet the
config succeeds with only the warning — no target read happened. -/
theorem c6_witness :
    filter_baserow_table exDb2 (.intV 1) (.str "ref") = .ok [] ∧
    linkOneConfig exDb2 exCfg = ([.emptyQueueWarning (.intV 1)], none) ∧
    link_related_records exDb2 [exCfg] = ([.emptyQueueWarning (.intV 1)], none) := by
  have h := c6_empty_queue_short_circuit exDb2 exCfg (.intV 1) (.intV 2) (.str "name")
    (.str "tname") (.str "ID") (.str "ref") exFullSourceTable []
    (by decide) (by decide) (by decide) (by decide) (by decide) (by decide)
    (by decide) (by decide)
  exact ⟨h.1, h.2.1, by rw [h.2.2]; rfl⟩

/-- C7: a work-queue row whose normalized match key is absent from the
index contributes exactly one warning to the trace: the loop's events
split around it with no event of its own but the warning, the loop goes
on with the rows after it and does not fail because of it, and (row ids
being distinct) no remote write to any field of that row appears anywhere
in the trace — the row stays unlinked, eligible for the next run. -/
theorem c7_no_match_leaves_row (mf rf pf : Value) (idx : Index) (pre post : List Row)
    (row : Row) (s : String)
    (hpre : (linkRows mf rf pf idx pre).2 = none)
    (hget : row.getV mf = some (.str s))
    (hlk : indexLookup idx (normalize s) = none) :
    linkRows mf rf pf idx (pre ++ row :: post) =
      ((linkRows mf rf pf idx pre).1 ++
        .noMatchWarning row.id (normalize s) :: (linkRows mf rf pf idx post).1,
       (linkRows mf rf pf idx post).2) ∧
    (((pre ++ row :: post).map Row.id).Nodup →
      ∀ f v, Event.rowWrite row.id f v ∉ (linkRows mf rf pf idx (pre ++ row :: post)).1) := by
  constructor
  · rw [linkRows_append mf rf pf idx pre (row :: post) hpre,
        linkRows_noMatch_step mf rf pf idx row post hget hlk]
  · intro hnodup f v
    exact linkRows_noMatch_no_write mf rf pf idx pre post row hpre hget hlk hnodup f v

def exRow31 : Row := ⟨31, [("sm", .str "Z")]⟩

def exIdx7 : Index := [("b", ⟨42, [("ID", .intV 42)]⟩)]

/-- Witness for C7: the spec's example — a source row with match value
"Z" absent from the target index gets a warning, no write, and the run
continues. -/
theorem c7_witness :
    linkRows (.str "sm") (.str "ref") (.str "ID") exIdx7 [exRow31] =
      ([.noMatchWarning 31 (normalize "Z")], none) ∧
    Event.rowWrite 31 (.str "ref") (.intV 42) ∉
      (linkRows (.str "sm") (.str "ref") (.str "ID") exIdx7 [exRow31]).1 := by
  have h := c7_no_match_leaves_row (.str "sm") (.str "ref") (.str "ID") exIdx7 [] []
    exRow31 "Z" rfl (by decide) (by decide)
  exact ⟨by rw [show [exRow31] = [] ++ exRow31 :: [] from rfl, h.1]; rfl,
         h.2 (by decide) (.str "ref") (.intV 42)⟩

/-- C8: a config dict missing any of the six required keys makes the
iteration fail at once with a configuration error naming a missing key,
before anything was done for it (its trace is empty, and the statement
holds for every database alike — no remote operation is involved), and
the error ends the entire run: the remaining configs are not reached. -/
theorem c8_missing_key_aborts (db : Database) (cfg : List (String × Value))
    (rest : List (List (String × Value))) (k : String)
    (hk : k ∈ requiredFields) (hmiss : getCfg cfg k = none) :
    ∃ k', k' ∈ requiredFields ∧ getCfg cfg k' = none ∧
      linkOneConfig db cfg = ([], some ("Missing required config field: " ++ k')) ∧
      link_related_records db (cfg :: rest) =
        ([], some ("Missing required config field: " ++ k')) := by
  have hsome : (firstMissingField cfg).isSome := by
    unfold firstMissingField
    rw [List.find?_isSome]
    exact ⟨k, hk, by simp [hmiss]⟩
  obtain ⟨k', hfind⟩ := Option.isSome_iff_exists.mp hsome
  have hk' : k' ∈ requiredFields := List.mem_of_find?_eq_some hfind
  have hnone : getCfg cfg k' = none := by
    have := List.find?_some hfind
    simpa using this
  have hone : linkOneConfig db cfg =
      ([], some ("Missing required config field: " ++ k')) := by
    unfold linkOneConfig
    rw [hfind]
  refine ⟨k', hk', hnone, hone, ?_⟩
  rw [run_cons_err db cfg rest (by rw [hone]), hone]

def exCfgMissing : List (String × Value) :=
  [("target_table_id", .intV 2),
   ("source_table_match_field", .str "name"), ("target_table_match_field", .str "tname"),
   ("target_table_primary_key_field", .str "ID"), ("source_table_reference_field", .str "ref")]

/-- Witness for C8: a config lacking only `source_table_id` fails naming
that key and ends the whole run. -/
theorem c8_witness :
    linkOneConfig exDb exCfgMissing =
      ([], some "Missing required config field: source_table_id") ∧
    link_related_records exDb [exCfgMissing] =
      ([], some "Missing required config field: source_table_id") := by
  obtain ⟨k', hk', hnone, hone, hrun⟩ :=
    c8_missing_key_aborts exDb exCfgMissing [] "source_table_id" (by decide) (by decide)
  have hk'' : k' = "source_table_id" := by
    simp only [requiredFields, List.mem_cons, List.not_mem_nil, or_false] at hk'
    rcases hk' with h | h | h | h | h | h
    · exact h
    · rw [h] at hnone
      exact absurd hnone (by decide)
    · rw [h] at hnone
      exact absurd hnone (by decide)
    · rw [h] at hnone
      exact absurd hnone (by decide)
    · rw [h] at hnone
      exact absurd hnone (by decide)
    · rw [h] at hnone
      exact absurd hnone (by decide)
  rw [hk''] at hone hrun
  exact ⟨hone, hrun⟩

def wsTargetRow : Row := ⟨7, [("m", .str " "), ("ID", .intV 42)]⟩

def wsSourceRow : Row := ⟨11, [("sm", .str " ")]⟩

/-- Counterexample to C9 as stated: the empty string CAN be a key of an
index built by the program.  A target row whose match value is the
one-space string " " is truthy (non-empty), so it is not excluded; its
normalized key is "", and a source row whose match value is whitespace
matches it and is linked — it does not take the no-match branch. -/
theorem c9_counterexample :
    buildIndexRows (.str "m") [wsTargetRow] [] = .ok [("", wsTargetRow)] ∧
    indexLookup [("", wsTargetRow)] "" = some wsTargetRow ∧
    linkRows (.str "sm") (.str "ref") (.str "ID") [("", wsTargetRow)] [wsSourceRow] =
      ([.rowWrite 11 (.str "ref") (.intV 42), .linkSuccess 11 7], none) :=
  ⟨by decide, by decide, by decide⟩

/-- C9 (amended): a source row whose match value is empty or whitespace
normalizes to the empty-string key; when no scanned target row
contributes the empty key — that is, no target row's match value is a
non-empty string of whitespace — the empty string is not a key of the
built index, and such a source row takes the no-match branch: it gets
only a warning, no write, and stays unlinked. -/
theorem c9_empty_key_unlinked (fieldName mf rf pf : Value) (trows : List Row)
    (idx : Index) (pre post : List Row) (row : Row) (s : String)
    (hok : buildIndexRows fieldName trows [] = .ok idx)
    (hnoc : ∀ r ∈ trows, rowContributes fieldName r "" = false)
    (hpre : (linkRows mf rf pf idx pre).2 = none)
    (hget : row.getV mf = some (.str s))
    (hkey : normalize s = "") :
    indexLookup idx "" = none ∧
    linkRows mf rf pf idx (pre ++ row :: post) =
      ((linkRows mf rf pf idx pre).1 ++
        .noMatchWarning row.id "" :: (linkRows mf rf pf idx post).1,
       (linkRows mf rf pf idx post).2) ∧
    (((pre ++ row :: post).map Row.id).Nodup →
      ∀ f v, Event.rowWrite row.id f v ∉ (linkRows mf rf pf idx (pre ++ row :: post)).1) := by
  have hlkE : indexLookup idx "" = none := by
    have hspec : indexLookup idx "" = specLastRowWithKey fieldName trows "" := by
      have := buildIndexRows_ok_lookup fieldName trows [] idx hok ""
      simpa [indexLookup, Option.or_none] using this
    rw [hspec]
    rw [← Option.not_isSome_iff_eq_none]
    intro hs
    obtain ⟨r, hr, hc⟩ := (specLastRowWithKey_isSome fieldName trows "").mp (by simpa using hs)
    rw [hnoc r hr] at hc
    cases hc
  have hlk : indexLookup idx (normalize s) = none := by
    rw [hkey]
    exact hlkE
  refine ⟨hlkE, ?_, ?_⟩
  · rw [linkRows_append mf rf pf idx pre (row :: post) hpre,
      linkRows_noMatch_step mf rf pf idx row post hget hlk, hkey]
  · intro hnodup f v
    exact linkRows_noMatch_no_write mf rf pf idx pre post row hpre hget hlk hnodup f v

def c9TargetRow : Row := ⟨7, [("m", .str "x"), ("ID", .intV 42)]⟩

def c9SourceRow : Row := ⟨11, [("sm", .str "  ")]⟩

/-- Witness for the amended C9: no target row normalizes to the empty
key, and the whitespace-only source row (key "") stays unlinked with a
warning. -/
theorem c9_witness :
    indexLookup [("x", c9TargetRow)] "" = none ∧
    linkRows (.str "sm") (.str "ref") (.str "ID") [("x", c9TargetRow)] [c9SourceRow] =
      ([.noMatchWarning 11 ""], none) ∧
    Event.rowWrite 11 (.str "ref") (.intV 42) ∉
      (linkRows (.str "sm") (.str "ref") (.str "ID") [("x", c9TargetRow)] [c9SourceRow]).1 := by
  have h := c9_empty_key_unlinked (.str "m") (.str "sm") (.str "ref") (.str "ID")
    [c9TargetRow] [("x", c9TargetRow)] [] [] c9SourceRow "  "
    (by decide) (by decide) rfl (by decide) (by decide)
  exact ⟨h.1,
    by rw [show [c9SourceRow] = [] ++ c9SourceRow :: [] from rfl, h.2.1]; rfl,
    h.2.2 (by decide) (.str "ref") (.intV 42)⟩

/-- C10: the configuration loader runs only configurations marked active:
every config it returns comes from a config-table row whose Active field
holds boolean true (so a row whose Active field is anything else never
produces a config), and the loaded config's target primary-key field is
the target table's own primary field, not something read off the config
row. -/
theorem c10_active_configs_only (db : Database) (ctid : Value) (ctable : Table)
    (cfgs : List (List (String × Value)))
    (hct : getTable db ctid = some ctable)
    (hok : get_record_link_configs db ctid = .ok cfgs) :
    ∀ cfg ∈ cfgs, ∃ r ∈ ctable.rows,
      r.get "Active" = some (.boolV true) ∧
      configFromRow db r = .ok cfg ∧
      ∃ tid t, r.get "Target Table ID" = some tid ∧ getTable db tid = some t ∧
        getCfg cfg "target_table_primary_key_field" = some (.str t.primaryField) := by
  intro cfg hcfg
  rw [get_record_link_configs, hct] at hok
  obtain ⟨r, hrmem, hfr⟩ := configsFromRows_mem db _ cfgs hok cfg hcfg
  have hract : isActiveRow r = true := (List.mem_filter.mp hrmem).2
  have hrmem' : r ∈ ctable.rows := (List.mem_filter.mp hrmem).1
  refine ⟨r, hrmem', by simpa [isActiveRow] using hract, hfr, ?_⟩
  cases hg1 : r.get "Source Table ID" with
  | none => simp [configFromRow, hg1] at hfr
  | some sid =>
  cases hg2 : r.get "Target Table ID" with
  | none => simp [configFromRow, hg1, hg2] at hfr
  | some tid =>
  cases hg3 : r.get "Source Table Match Field" with
  | none => simp [configFromRow, hg1, hg2, hg3] at hfr
  | some smf =>
  cases hg4 : r.get "Target Table Match Field" with
  | none => simp [configFromRow, hg1, hg2, hg3, hg4] at hfr
  | some tmf =>
  simp only [configFromRow, hg1, hg2, hg3, hg4] at hfr
  cases hgt : getTable db tid with
  | none => simp [get_primary_key_field, hgt] at hfr
  | some t =>
  have hpk : get_primary_key_field db tid = .ok t.primaryField := by
    simp [get_primary_key_field, hgt]
  rw [hpk] at hfr
  cases hg6 : r.get "Source Table Reference Field" with
  | none => simp [hg6] at hfr
  | some srf =>
  rw [hg6] at hfr
  refine ⟨tid, t, rfl, hgt, ?_⟩
  cases hfr
  rfl

def cfgRowActive : Row :=
  ⟨1, [("Active", .boolV true), ("Source Table ID", .intV 1), ("Target Table ID", .intV 2),
       ("Source Table Match Field", .str "name"), ("Target Table Match Field", .str "tname"),
       ("Source Table Reference Field", .str "ref")]⟩

def cfgRowInactive : Row :=
  ⟨2, [("Active", .boolV false), ("Source Table ID", .intV 1), ("Target Table ID", .intV 2),
       ("Source Table Match Field", .str "x"), ("Target Table Match Field", .str "y"),
       ("Source Table Reference Field", .str "z")]⟩

def exCfgTable : Table := ⟨[cfgRowActive, cfgRowInactive], "Name"⟩

def exDb3 : Database :=
  [(.str "cfg", exCfgTable), (.intV 1, exSourceTable), (.intV 2, exTargetTable)]

/-- Witness for C10: of two config rows only the active one yields a
config, and its primary-key field is the target table's own primary
field "ID". -/
theorem c10_witness :
    get_record_link_configs exDb3 (.str "cfg") = .ok [exCfg] ∧
    (∃ r ∈ exCfgTable.rows,
      r.get "Active" = some (.boolV true) ∧
      configFromRow exDb3 r = .ok exCfg ∧
      ∃ tid t, r.get "Target Table ID" = some tid ∧ getTable exDb3 tid = some t ∧
        getCfg exCfg "target_table_primary_key_field" = some (.str t.primaryField)) :=
  ⟨by decide,
   c10_active_configs_only exDb3 (.str "cfg") exCfgTable [exCfg]
     (by decide) (by decide) exCfg (by decide)⟩

end BaserowLinker
